import Mathlib

/-!
Shallow embedding of `src/app.py` (bank-statement PDF table normalizer).
A raw grid coming from the table-extraction engine is modelled as a list of
rows of cells; a cell is `Option String`, where `none` stands for a pandas
missing value (NaN) and `some s` for the text `s` (camelot produces string
cells; empty cells read as empty strings, and cells can be NaN after the
DataFrame manipulations modelled here).  `str(x)` on a cell is `cellStr`:
`str(nan) = "nan"`.
-/

abbrev Cell := Option String

/-- `str(x)` for a cell: a string cell prints as itself, NaN prints as "nan". -/
def cellStr : Cell → String
  | none => "nan"
  | some s => s

/-- Python whitespace characters recognised by `str.strip()`. -/
def pySpaceChar (c : Char) : Bool :=
  c == ' ' || c == '\t' || c == '\n' || c == '\r' || c == '\x0b' || c == '\x0c'

/-- `str.strip()` on a character list: drop whitespace from both ends. -/
def pyStripL (l : List Char) : List Char :=
  ((l.dropWhile pySpaceChar).reverse.dropWhile pySpaceChar).reverse

/-- Python `s.strip()`. -/
def pyStrip (s : String) : String := String.mk (pyStripL s.data)

/-- Python `s.lower()`, modelled on the character list: ASCII case folding
(the inputs this program lowercases are ASCII; no theorem below depends on
Unicode special casing). -/
def pyLower (s : String) : String := String.mk (s.data.map Char.toLower)

/-- Does `needle` occur at the head of `hay`?  (List analogue of Python
substring matching anchored at position 0.) -/
def leadEq : List Char → List Char → Bool
  | [], _ => true
  | _ :: _, [] => false
  | a :: n, b :: h => a == b && leadEq n h

/-- Does `needle` occur contiguously anywhere in `hay`?  This is Python's
`needle in hay` on strings, at the character-list level. -/
def occursIn (needle : List Char) : List Char → Bool
  | [] => needle.isEmpty
  | c :: rest => leadEq needle (c :: rest) || occursIn needle rest

/-- Python `needle in hay` for strings. -/
def strContains (hay needle : String) : Bool := occursIn needle.data hay.data

/-- `' '.join(s)` for a Python string `s`: a string is an iterable of its
characters, so `join` intersperses a space between every pair of adjacent
characters.  List-level version. -/
def spaceSep : List Char → List Char
  | [] => []
  | [c] => [c]
  | c :: d :: rest => c :: ' ' :: spaceSep (d :: rest)

/-- `' '.join(s)` (line 117 of `app.py` applies this to the string
representation of a whole row Series, not to a list of cell strings). -/
def pySpaceJoin (s : String) : String := String.mk (spaceSep s.data)

/-- Model of `str(pd.Series row)`: pandas renders one line per entry
(index, whitespace, value) followed by a dtype footer.  The exact padding
pandas uses is irrelevant to every theorem below: `pySpaceJoin` destroys all
multi-character substrings of any string whatsoever. -/
def seriesStr (row : List Cell) : String :=
  String.intercalate "\n"
    ((row.enum.map (fun p => toString p.1 ++ "    " ++ cellStr p.2)) ++ ["dtype: object"])

/-- Line 117: `row_text = ' '.join(str(df.iloc[row_idx]).lower())`. -/
def rowText (row : List Cell) : String := pySpaceJoin (pyLower (seriesStr row))

/-- Line 114: the fixed banking keyword list. -/
def bankingKeywords : List String :=
  ["date", "detail", "description", "credit", "debit", "balance", "amount", "transaction"]

/-- Line 118: `sum(keyword in row_text for keyword in banking_keywords)`. -/
def headerScore (row : List Cell) : Nat :=
  (bankingKeywords.filter (fun k => strContains (rowText row) k)).length

/-- Lines 116-121: scan the first `min 3 (len df)` rows, stop at the first one
whose keyword score is at least 2; `none` when no scanned row qualifies. -/
def headerFind (df : List (List Cell)) : Option Nat :=
  (List.range (min 3 df.length)).find? (fun i => decide (2 ≤ headerScore (df.getD i [])))

/-- `df.dropna(how='all')`: keep rows with at least one non-NaN cell. -/
def dropEmptyRows (g : List (List Cell)) : List (List Cell) :=
  g.filter (fun r => r.any (fun c => c.isSome))

/-- Number of columns of the DataFrame built from a grid: pandas pads ragged
rows with NaN up to the longest row. -/
def gwidth (g : List (List Cell)) : Nat :=
  g.foldr (fun r m => max r.length m) 0

/-- `df.dropna(axis=1, how='all')`: the indices of columns that keep at least
one non-NaN entry (cells past a row's end read as NaN). -/
def keptCols (g : List (List Cell)) : List Nat :=
  (List.range (gwidth g)).filter (fun j => g.any (fun r => (r.getD j none).isSome))

/-- Lines 100-101: drop all-NaN rows, then all-NaN columns (judged on the
row-pruned frame).  The result is rectangular: every row is re-indexed by the
kept column list. -/
def pruneGrid (g : List (List Cell)) : List (List Cell) :=
  (dropEmptyRows g).map (fun r => (keptCols (dropEmptyRows g)).map (fun j => r.getD j none))

/-- `df.shape[1]` after pruning (line 146). -/
def ncols (g : List (List Cell)) : Nat := (keptCols (dropEmptyRows g)).length

/-- Line 160: the required canonical column names, in canonical order. -/
def reqCols : List String := ["Date", "Details", "Credits", "Debits", "Balance"]

/-- Lines 126-141: classify each header cell by first matching substring rule;
unmatched cells get `Column_{len(new_columns)+1}` from the running count. -/
def mapHeaderRow (row : List Cell) : List String :=
  row.foldl (fun acc c =>
    let s := pyLower (pyStrip (cellStr c))
    let name :=
      if strContains s "date" then "Date"
      else if strContains s "detail" || strContains s "description" ||
        strContains s "particular" then "Details"
      else if strContains s "credit" then "Credits"
      else if strContains s "debit" then "Debits"
      else if strContains s "balance" then "Balance"
      else "Column_" ++ toString (acc.length + 1)
    acc ++ [name]) []

/-- Lines 123-157: resulting column names and data rows.  With a detected
header, rename by the header cells and drop every row up to and including the
header row; otherwise assign names positionally by column count (the 4-column
case also appends the two all-empty `Credits`/`Debits` columns of lines
152-153). -/
def assignCols (df : List (List Cell)) (n : Nat) : List String × List (List Cell) :=
  match headerFind df with
  | some h => (mapHeaderRow (df.getD h []), df.drop (h + 1))
  | none =>
    if 5 ≤ n then
      (reqCols ++ (List.range' 5 (n - 5)).map (fun j => "Extra_" ++ toString j), df)
    else if n = 4 then
      (["Date", "Details", "Amount", "Balance"] ++ ["Credits", "Debits"],
        df.map (fun r => r ++ [some "", some ""]))
    else
      ((List.range n).map (fun j => "Column_" ++ toString (j + 1)), df)

/-- Lines 159-166: append an all-empty column for each required name not yet
present (in required order), then select the required five columns by name.
Selection is modelled by the first occurrence of each name; the live column
sets produced above never contain duplicate canonical names. -/
def completeSelect (cols : List String) (rows : List (List Cell)) : List (List Cell) :=
  let missing := reqCols.filter (fun c => !(cols.contains c))
  let cols2 := cols ++ missing
  let rows2 := rows.map (fun r => r ++ missing.map (fun _ => (some "" : Cell)))
  let selIdx := reqCols.map (fun c => cols2.indexOf c)
  rows2.map (fun r => selIdx.map (fun j => r.getD j none))

/-- Lines 172-175: `astype(str).str.strip()` then `replace('nan','')` (the
replace matches the whole cell value). -/
def cleanCell (c : Cell) : String :=
  let s := pyStrip (cellStr c)
  if s = "nan" then "" else s

/-- Lines 159-170 applied after column assignment: schema completion and
selection, then `dropna(how='all')`, then the Date filter
`df[df['Date'].astype(str).str.strip() != '']`. -/
def filteredRows (g : List (List Cell)) : List (List Cell) :=
  let df := pruneGrid g
  let p := assignCols df (ncols g)
  ((completeSelect p.1 p.2).filter (fun r => r.any (fun c => c.isSome))).filter
    (fun r => pyStrip (cellStr (r.getD 0 none)) != "")

/-- A normalized table: column names plus string data rows. -/
structure NTable where
  cols : List String
  rows : List (List String)
deriving DecidableEq, Repr

/-- Lines 94-181, `process_table`: prune, return `None` on an empty frame,
assign column names (header detection never fires, see `headerFind_eq_none`),
complete and select the canonical schema, filter rows, clean every cell, and
return `None` when no rows survive. -/
def process_table (g : List (List Cell)) : Option NTable :=
  if (pruneGrid g).isEmpty || ncols g == 0 then none
  else
    let rows := (filteredRows g).map (fun r => r.map cleanCell)
    if rows.isEmpty then none else some ⟨reqCols, rows⟩

/-- The header score as the specification words it (spec step 2, for
comparison with `headerScore`): concatenate the stringified, lower-cased cell
texts of the row into one string and count the banking keywords occurring in
it as substrings. -/
def specHeaderScore (row : List Cell) : Nat :=
  (bankingKeywords.filter
    (fun k => strContains (String.join (row.map (fun c => pyLower (cellStr c)))) k)).length

/-- A canonical bank-statement header row. -/
def hdrRowC1 : List Cell :=
  [some "Date", some "Details", some "Credits", some "Debits", some "Balance"]

/-- The header-precedence scenario grid of the specification: the claimed
header row followed by one data row. -/
def gC4 : List (List Cell) :=
  [[some "Txn Date", some "Particulars", some "Debit Amt", some "Credit Amt", some "Bal"],
   [some "01/02", some "x", some "1", some "2", some "3"]]

/-- A 5-column grid whose second row has a missing (NaN) Date cell. -/
def gNaN : List (List Cell) :=
  [[some "01/01", some "x", some "1", some "2", some "3"],
   [none, some "y", some "4", some "5", some "6"]]

/-- The 4-column scenario grid of the specification. -/
def gC5 : List (List Cell) := [[some "01/01", some "Deposit", some "100", some "100"]]

/-- View a table of strings as a raw grid (every cell present). -/
def toGrid (t : List (List String)) : List (List Cell) :=
  t.map (fun r => r.map (fun c => some c))

/-- A genuine normalizer output (of `gNaN`) whose second row has an empty
Date. -/
def tC6 : List (List String) := [["01/01", "x", "1", "2", "3"], ["", "y", "4", "5", "6"]]

/-- One raw grid as extracted by the engine. -/
abbrev Grid := List (List Cell)

/-- Lines 50-61: one table of a file.  `df.empty` grids are skipped (line 54);
the call to `process_table` sits inside the per-file `try` (line 31), but
`process_table` itself already catches every exception (lines 179-181) and
returns `None`, so a per-table failure is modelled by the `body` parameter
returning `Except.error`: the table then contributes nothing.  A returned
table is appended only when non-`None` and non-empty (line 60). -/
def normTable (body : Grid → Except String (Option NTable)) (g : Grid) : Option NTable :=
  if g.isEmpty || gwidth g == 0 then none
  else
    match body g with
    | Except.error _ => none
    | Except.ok none => none
    | Except.ok (some t) => if t.rows.isEmpty then none else some t

/-- The per-file list of successfully normalized tables (`all_data`). -/
def normalizeAll (body : Grid → Except String (Option NTable))
    (tables : List Grid) : List NTable :=
  tables.filterMap (normTable body)

/-- Lines 63-69: concatenate the per-table results in discovery order.  All
cells are strings after cleaning, so `dropna(how='all')` on the concatenation
drops nothing, and `reset_index` is positional; `None` when no table
contributed data (line 88). -/
def fileResult (body : Grid → Except String (Option NTable))
    (tables : List Grid) : Option NTable :=
  let all := normalizeAll body tables
  if all.isEmpty then none
  else some ⟨reqCols, (all.map (fun t => t.rows)).flatten⟩

/-- The real per-table body: `process_table` never raises in the model (its
Python counterpart catches its own exceptions). -/
def realBody : Grid → Except String (Option NTable) := fun g => Except.ok (process_table g)

/-- Terminal state of one file in the driver. -/
inductive FileOutcome where
  | skippedNoTables : FileOutcome
  | skippedNoData : FileOutcome
  | written : NTable → FileOutcome
deriving DecidableEq, Repr

/-- Lines 44-89: outcome of processing a chosen table list. -/
def tablesOutcome (tables : List Grid) : FileOutcome :=
  if tables.isEmpty then FileOutcome.skippedNoTables
  else
    match fileResult realBody tables with
    | none => FileOutcome.skippedNoData
    | some t => FileOutcome.written t

/-- Lines 31-42: try the lattice strategy first; run the stream strategy only
when lattice yielded no tables; skip the file when the chosen list is still
empty. -/
def driveFile (lattice stream : List Grid) : FileOutcome :=
  tablesOutcome (if lattice.isEmpty then stream else lattice)

/-- A CSV is produced exactly for `written` outcomes (lines 71-80). -/
def csvOutput : FileOutcome → Option NTable
  | FileOutcome.written t => some t
  | _ => none

/-- Lines 28-92: the batch loop; each file is handled independently, and a
skipped or failed file never stops the loop. -/
def runBatch (files : List (List Grid × List Grid)) : List FileOutcome :=
  files.map (fun p => driveFile p.1 p.2)

theorem leadEq_cons_cons (a b : Char) (n h : List Char) :
    leadEq (a :: n) (b :: h) = (a == b && leadEq n h) := rfl

/-- No sequence of two or more non-space characters occurs in a space-joined
string: `' '.join` puts a space between every pair of adjacent characters. -/
theorem occursIn_spaceSep_eq_false (a b : Char) (rest : List Char)
    (ha : a ≠ ' ') (hb : b ≠ ' ') :
    ∀ l : List Char, occursIn (a :: b :: rest) (spaceSep l) = false := by
  intro l
  induction l with
  | nil => rfl
  | cons c t ih =>
    cases t with
    | nil =>
      simp [spaceSep, occursIn, leadEq]
    | cons d t' =>
      have hb2 : (b == ' ') = false := by simpa using hb
      have ha2 : (a == ' ') = false := by simpa using ha
      simp only [spaceSep, occursIn, leadEq_cons_cons, hb2, ha2, Bool.and_false,
        Bool.false_and, Bool.false_or]
      exact ih

theorem strContains_pySpaceJoin_eq_false (s : String) (kw : String)
    (a b : Char) (rest : List Char) (hkw : kw.data = a :: b :: rest)
    (ha : a ≠ ' ') (hb : b ≠ ' ') :
    strContains (pySpaceJoin s) kw = false := by
  unfold strContains pySpaceJoin
  rw [hkw]
  exact occursIn_spaceSep_eq_false a b rest ha hb s.data

/-- The keyword score of line 118 is always zero: every banking keyword has at
least two adjacent non-space characters, and line 117 space-joined the
characters of the row representation. -/
theorem headerScore_eq_zero (row : List Cell) : headerScore row = 0 := by
  have h := fun kw a b rest hkw ha hb =>
    strContains_pySpaceJoin_eq_false (pyLower (seriesStr row)) kw a b rest hkw ha hb
  have hall : ∀ kw ∈ bankingKeywords, strContains (rowText row) kw = false := by
    intro kw hkw
    unfold bankingKeywords at hkw
    simp only [rowText]
    simp only [List.mem_cons, List.not_mem_nil, or_false] at hkw
    rcases hkw with h1 | h1 | h1 | h1 | h1 | h1 | h1 | h1 <;> subst h1
    · exact h _ 'd' 'a' _ rfl (by decide) (by decide)
    · exact h _ 'd' 'e' _ rfl (by decide) (by decide)
    · exact h _ 'd' 'e' _ rfl (by decide) (by decide)
    · exact h _ 'c' 'r' _ rfl (by decide) (by decide)
    · exact h _ 'd' 'e' _ rfl (by decide) (by decide)
    · exact h _ 'b' 'a' _ rfl (by decide) (by decide)
    · exact h _ 'a' 'm' _ rfl (by decide) (by decide)
    · exact h _ 't' 'r' _ rfl (by decide) (by decide)
  unfold headerScore
  rw [List.length_eq_zero, List.filter_eq_nil_iff]
  intro kw hkw
  simp [hall kw hkw]

/-- Header detection never succeeds on any grid. -/
theorem headerFind_eq_none (df : List (List Cell)) : headerFind df = none := by
  unfold headerFind
  apply List.find?_eq_none.mpr
  intro i _
  simp [headerScore_eq_zero]

theorem rangeGetD {α : Type} (r : List α) (d : α) :
    (List.range r.length).map (fun j => r.getD j d) = r := by
  induction r with
  | nil => rfl
  | cons a t ih =>
    rw [List.length_cons, List.range_succ_eq_map, List.map_cons, List.map_map]
    have hcomp : ((fun j => (a :: t).getD j d) ∘ Nat.succ) = (fun j => t.getD j d) := rfl
    rw [hcomp, ih]
    rfl

theorem mem_pruneGrid_length {g : List (List Cell)} {r : List Cell}
    (h : r ∈ pruneGrid g) : r.length = ncols g := by
  unfold pruneGrid at h
  simp only [List.mem_map] at h
  obtain ⟨s, _, rfl⟩ := h
  simp [ncols]

theorem pruneGrid_not_empty_of_ncols {g : List (List Cell)} (h : ncols g ≠ 0) :
    (pruneGrid g).isEmpty = false := by
  unfold ncols keptCols at h
  unfold pruneGrid
  cases hd : dropEmptyRows g with
  | nil => rw [hd] at h; simp [gwidth] at h
  | cons a t => rfl

theorem process_table_eq_some {g : List (List Cell)} {t : NTable}
    (h : process_table g = some t) :
    t = ⟨reqCols, (filteredRows g).map (fun r => r.map cleanCell)⟩ ∧
    (filteredRows g).map (fun r => r.map cleanCell) ≠ [] := by
  simp only [process_table] at h
  split at h
  · exact absurd h (by simp)
  · split at h
    · exact absurd h (by simp)
    · refine ⟨(Option.some.inj h).symm, ?_⟩
      simp_all [List.isEmpty_iff]

theorem mem_filteredRows_length {g : List (List Cell)} {p : List Cell}
    (hp : p ∈ filteredRows g) : p.length = 5 := by
  simp only [filteredRows, List.mem_filter] at hp
  obtain ⟨⟨hp, _⟩, _⟩ := hp
  simp only [completeSelect, List.mem_map] at hp
  obtain ⟨r, _, rfl⟩ := hp
  simp [reqCols]

theorem mem_filteredRows_date {g : List (List Cell)} {p : List Cell}
    (hp : p ∈ filteredRows g) : pyStrip (cellStr (p.getD 0 none)) ≠ "" := by
  simp only [filteredRows, List.mem_filter] at hp
  exact bne_iff_ne.mp hp.2

theorem cleanCell_ne_nan (c : Cell) : cleanCell c ≠ "nan" := by
  by_cases h : pyStrip (cellStr c) = "nan" <;> simp [cleanCell, h]

/-- C2.  Whenever `process_table` returns a table, its columns are exactly the
canonical five, in canonical order, and every data row has exactly five
fields: all other columns of the input grid were discarded by the selection of
lines 159-166, whatever the input column count or order was. -/
theorem c2_output_schema_canonical (g : List (List Cell)) (t : NTable)
    (h : process_table g = some t) :
    t.cols = reqCols ∧ t.rows ≠ [] ∧ ∀ r ∈ t.rows, r.length = 5 := by
  obtain ⟨rfl, hne⟩ := process_table_eq_some h
  refine ⟨rfl, hne, ?_⟩
  intro r hr
  simp only [List.mem_map] at hr
  obtain ⟨p, hp, rfl⟩ := hr
  rw [List.length_map]
  exact mem_filteredRows_length hp

/-- Witness for C2 at a concrete seven-column grid: the two extra columns are
discarded and the output has exactly the five canonical columns. -/
theorem c2_output_schema_canonical_witness :
    process_table [[some "01/01", some "pay", some "10", some "20", some "30",
        some "x", some "y"]] =
      some ⟨reqCols, [["01/01", "pay", "10", "20", "30"]]⟩ ∧
    (⟨reqCols, [["01/01", "pay", "10", "20", "30"]]⟩ : NTable).cols = reqCols := by
  refine ⟨by decide, ?_⟩
  exact (c2_output_schema_canonical
    [[some "01/01", some "pay", some "10", some "20", some "30", some "x", some "y"]]
    ⟨reqCols, [["01/01", "pay", "10", "20", "30"]]⟩ (by decide)).1

/-- C7.  A cell whose string form is the missing-value marker "nan" is cleaned
to the empty string by lines 172-175, and no cell of any returned table is the
literal text "nan". -/
theorem c7_nan_becomes_empty :
    (∀ x : Cell, cellStr x = "nan" → cleanCell x = "") ∧
    (∀ (g : List (List Cell)) (t : NTable), process_table g = some t →
      ∀ r ∈ t.rows, ∀ c ∈ r, c ≠ "nan") := by
  constructor
  · intro x hx
    unfold cleanCell
    rw [hx]
    decide
  · intro g t h r hr c hc
    obtain ⟨rfl, _⟩ := process_table_eq_some h
    simp only [List.mem_map] at hr
    obtain ⟨p, hp, rfl⟩ := hr
    simp only [List.mem_map] at hc
    obtain ⟨x, hx, rfl⟩ := hc
    exact cleanCell_ne_nan x

/-- Witness for C7: a NaN Balance cell comes out as the empty string, and the
cleaning function blanks any cell printing as "nan". -/
theorem c7_nan_becomes_empty_witness :
    cleanCell (none : Cell) = "" ∧
    process_table [[some "01/01", some "x", some "1", some "2", none],
        [some "01/02", some "y", some "4", some "5", some "6"]] =
      some ⟨reqCols, [["01/01", "x", "1", "2", ""], ["01/02", "y", "4", "5", "6"]]⟩ ∧
    ("" : String) ≠ "nan" := by
  refine ⟨c7_nan_becomes_empty.1 none (by decide), by decide, ?_⟩
  exact c7_nan_becomes_empty.2
    [[some "01/01", some "x", some "1", some "2", none],
      [some "01/02", some "y", some "4", some "5", some "6"]]
    ⟨reqCols, [["01/01", "x", "1", "2", ""], ["01/02", "y", "4", "5", "6"]]⟩ (by decide)
    ["01/01", "x", "1", "2", ""] (by decide) "" (by decide)

/-- C1 (code bug).  Header detection as implemented never selects any row of
any grid: line 117 applies `' '.join` to the string representation of the row
Series, interspersing a space between every character, so no keyword can ever
occur as a substring and the score of line 118 is always 0.  By contrast the
claimed criterion (score of the concatenated cell text) gives the canonical
header row a score well above the threshold 2. -/
theorem c1_header_detection_never_fires :
    (∀ df : List (List Cell), headerFind df = none) ∧
    (∀ row : List Cell, headerScore row = 0) ∧
    2 ≤ specHeaderScore hdrRowC1 :=
  ⟨headerFind_eq_none, headerScore_eq_zero, by decide⟩

/-- C4 counterexample.  On the scenario grid the code does not detect the
header row (`headerFind` yields `none`), and even the header-mapping rules of
lines 126-141, had they been reached, would not map "Bal" to `Balance`:
"balance" is not a substring of "bal", so the cell falls through to the
positional label `Column_5`. -/
theorem c4_header_scenario_counterexample :
    headerFind (pruneGrid gC4) = none ∧
    mapHeaderRow (gC4.getD 0 []) ≠ ["Date", "Details", "Debits", "Credits", "Balance"] := by
  exact ⟨by decide, by decide⟩

/-- C4 amended.  What actually happens on the scenario grid: no header is
detected (see `headerFind_eq_none`), the grid falls to the
5-column positional branch, and the header text survives as the first data
row; the mapping rules themselves would have produced
`[Date, Details, Debits, Credits, Column_5]` — "Bal" does not contain
"balance" — had detection fired. -/
theorem c4_header_scenario_amended :
    headerFind (pruneGrid gC4) = none ∧
    process_table gC4 =
      some ⟨reqCols,
        [["Txn Date", "Particulars", "Debit Amt", "Credit Amt", "Bal"],
         ["01/02", "x", "1", "2", "3"]]⟩ ∧
    mapHeaderRow (gC4.getD 0 []) = ["Date", "Details", "Debits", "Credits", "Column_5"] := by
  exact ⟨by decide, by decide, by decide⟩

/-- C3 counterexample.  The returned table contains a row whose Date field is
the empty string: a NaN Date cell stringifies to "nan", which is non-empty and
so passes the Date filter of line 170, and the cleaning of lines 172-175 then
replaces it with "".  The claimed invariant (no output row has an empty Date)
is false. -/
theorem c3_empty_date_counterexample :
    process_table gNaN =
      some ⟨reqCols, [["01/01", "x", "1", "2", "3"], ["", "y", "4", "5", "6"]]⟩ ∧
    (["", "y", "4", "5", "6"].getD 0 "?" : String) = "" := by
  exact ⟨by decide, by decide⟩

/-- C3 amended.  Every returned row comes from a filtered row whose Date cell
stringifies-and-trims to a non-empty string (this is exactly the filter of
line 170); consequently an output row can have an empty Date field only when
that stringified, trimmed Date was the missing-value marker "nan", which the
cleaning step of lines 172-175 blanks after the filter has run. -/
theorem c3_date_filter_amended (g : List (List Cell)) (t : NTable)
    (h : process_table g = some t) :
    ∀ r ∈ t.rows, ∃ p, p ∈ filteredRows g ∧ r = p.map cleanCell ∧
      pyStrip (cellStr (p.getD 0 none)) ≠ "" ∧
      (r.getD 0 "" = "" → pyStrip (cellStr (p.getD 0 none)) = "nan") := by
  obtain ⟨rfl, _⟩ := process_table_eq_some h
  intro r hr
  simp only [List.mem_map] at hr
  obtain ⟨p, hp, rfl⟩ := hr
  have hne := mem_filteredRows_date hp
  refine ⟨p, hp, rfl, hne, ?_⟩
  intro h0
  cases p with
  | nil => decide
  | cons c p' =>
    have hc : (List.map cleanCell (c :: p')).getD 0 "" = cleanCell c := rfl
    rw [hc] at h0
    by_cases hnan : pyStrip (cellStr c) = "nan"
    · exact hnan
    · rw [show cleanCell c = pyStrip (cellStr c) from by simp [cleanCell, hnan]] at h0
      exact absurd h0 hne

/-- Witness for the amended C3, at the concrete grid `gNaN`: the second output
row has an empty Date precisely because its source Date cell printed as
"nan". -/
theorem c3_date_filter_amended_witness :
    process_table gNaN =
      some ⟨reqCols, [["01/01", "x", "1", "2", "3"], ["", "y", "4", "5", "6"]]⟩ ∧
    (∃ p, p ∈ filteredRows gNaN ∧ (["", "y", "4", "5", "6"] : List String) = p.map cleanCell ∧
      pyStrip (cellStr (p.getD 0 none)) ≠ "" ∧
      ((["", "y", "4", "5", "6"] : List String).getD 0 "" = "" →
        pyStrip (cellStr (p.getD 0 none)) = "nan")) := by
  refine ⟨by decide, ?_⟩
  exact c3_date_filter_amended gNaN
    ⟨reqCols, [["01/01", "x", "1", "2", "3"], ["", "y", "4", "5", "6"]]⟩ (by decide)
    ["", "y", "4", "5", "6"] (by decide)

/-- Since header detection never fires, column assignment always takes the
positional fallback of lines 144-157. -/
theorem assignCols_no_header (df : List (List Cell)) (n : Nat) :
    assignCols df n =
      if 5 ≤ n then
        (reqCols ++ (List.range' 5 (n - 5)).map (fun j => "Extra_" ++ toString j), df)
      else if n = 4 then
        (["Date", "Details", "Amount", "Balance"] ++ ["Credits", "Debits"],
          df.map (fun r => r ++ [some "", some ""]))
      else ((List.range n).map (fun j => "Column_" ++ toString (j + 1)), df) := by
  unfold assignCols
  rw [headerFind_eq_none]

theorem indexOf_append_first {α : Type} [DecidableEq α] (a : α) (l1 l2 : List α)
    (h : a ∉ l1) : List.indexOf a (l1 ++ l2) = l1.length + List.indexOf a l2 := by
  induction l1 with
  | nil => simp
  | cons b t ih =>
    rw [List.cons_append, List.indexOf_cons_ne _ (List.ne_of_not_mem_cons h).symm,
      ih (fun hm => h (List.mem_cons_of_mem b hm))]
    simp only [List.length_cons]
    omega

theorem not_mem_genericCols (n : Nat) :
    "Date" ∉ (List.range n).map (fun j => "Column_" ++ toString (j + 1)) := by
  intro h
  simp only [List.mem_map] at h
  obtain ⟨j, _, heq⟩ := h
  have hl := congrArg String.length heq
  rw [String.length_append] at hl
  have h7 : ("Column_" : String).length = 7 := by decide
  have h4 : ("Date" : String).length = 4 := by decide
  omega

/-- When "Date" is not among the assigned column names, schema completion adds
it as an all-empty column after the existing ones, and selection puts that
empty cell in front of every row: every selected row has `some ""` as its
Date cell. -/
theorem completeSelect_date_empty (cols : List String) (rows : List (List Cell))
    (hdate : "Date" ∉ cols)
    (hlen : ∀ r ∈ rows, r.length = cols.length) :
    ∀ x ∈ completeSelect cols rows, x.getD 0 none = some "" := by
  intro x hx
  simp only [completeSelect] at hx
  have hc : cols.contains "Date" = false := by simpa using hdate
  have hm : reqCols.filter (fun c => !(cols.contains c)) =
      "Date" :: (["Details", "Credits", "Debits", "Balance"].filter
        (fun c => !(cols.contains c))) := by
    rw [reqCols, List.filter_cons_of_pos (by show (!(cols.contains "Date")) = true; rw [hc]; rfl)]
  rw [hm] at hx
  simp only [List.mem_map] at hx
  obtain ⟨r2, hr2, rfl⟩ := hx
  obtain ⟨r, hr, rfl⟩ := hr2
  have hsel : reqCols.map
      (fun c => (cols ++ "Date" :: (["Details", "Credits", "Debits", "Balance"].filter
        (fun c => !(cols.contains c)))).indexOf c) =
      ((cols ++ "Date" :: (["Details", "Credits", "Debits", "Balance"].filter
        (fun c => !(cols.contains c)))).indexOf "Date") ::
      (["Details", "Credits", "Debits", "Balance"].map
        (fun c => (cols ++ "Date" :: (["Details", "Credits", "Debits", "Balance"].filter
          (fun c => !(cols.contains c)))).indexOf c)) := rfl
  rw [hsel, List.map_cons]
  have hidx : (cols ++ "Date" :: (["Details", "Credits", "Debits", "Balance"].filter
      (fun c => !(cols.contains c)))).indexOf "Date" = cols.length := by
    rw [indexOf_append_first "Date" cols _ hdate, List.indexOf_cons_self]
    exact Nat.add_zero _
  simp only [List.getD_cons_zero, hidx]
  rw [List.getD_append_right _ _ _ _ (by rw [hlen r hr]), hlen r hr, Nat.sub_self]
  rfl

/-- C10.  A grid with fewer than 4 columns after pruning (and no detected
header, which is always the case) normalizes to empty: the columns get the
generic `Column_j` names, schema completion adds `Date` as an all-empty
column, and the Date filter of line 170 then drops every row, so
`process_table` returns `None`. -/
theorem c10_narrow_grid_empty (g : List (List Cell))
    (hh : headerFind (pruneGrid g) = none) (hn : ncols g < 4) :
    process_table g = none := by
  simp only [process_table]
  split
  · rfl
  · rename_i hcond
    simp only [Bool.or_eq_true, List.isEmpty_iff, beq_iff_eq, not_or] at hcond
    have hfr : filteredRows g = [] := by
      simp only [filteredRows]
      apply List.filter_eq_nil_iff.mpr
      intro x hx
      have hx2 := List.mem_of_mem_filter hx
      rw [assignCols_no_header, if_neg (by omega), if_neg (by omega)] at hx2
      have hdx : x.getD 0 none = some "" := by
        refine completeSelect_date_empty _ _ (not_mem_genericCols (ncols g)) ?_ x hx2
        intro r hr
        rw [mem_pruneGrid_length hr]
        simp
      rw [hdx]
      decide
    simp [hfr]

/-- Witness for C10 at a concrete 2-column grid. -/
theorem c10_narrow_grid_empty_witness :
    headerFind (pruneGrid [[some "a", some "b"], [some "c", some "d"]]) = none ∧
    ncols [[some "a", some "b"], [some "c", some "d"]] < 4 ∧
    process_table [[some "a", some "b"], [some "c", some "d"]] = none := by
  refine ⟨by decide, by decide, ?_⟩
  exact c10_narrow_grid_empty [[some "a", some "b"], [some "c", some "d"]]
    (by decide) (by decide)

/-- Evaluation of schema completion and selection in the 4-column fallback:
all five canonical names are already present (lines 150-153 added `Amount`
plus empty `Credits`/`Debits`), so nothing is added and selection reorders to
`Date, Details, Credits, Debits, Balance`, with the `Amount` column dropped. -/
theorem completeSelect_four (rows : List (List Cell)) (hlen : ∀ r ∈ rows, r.length = 4) :
    completeSelect (["Date", "Details", "Amount", "Balance"] ++ ["Credits", "Debits"])
      (rows.map (fun r => r ++ [some "", some ""])) =
    rows.map (fun r => [r.getD 0 none, r.getD 1 none, some "", some "", r.getD 3 none]) := by
  simp only [completeSelect]
  rw [show (reqCols.filter (fun c =>
      !((["Date", "Details", "Amount", "Balance"] ++ ["Credits", "Debits"]).contains c))) =
      ([] : List String) from by decide]
  rw [show (reqCols.map (fun c =>
      ((["Date", "Details", "Amount", "Balance"] ++ ["Credits", "Debits"]) ++
        ([] : List String)).indexOf c)) = [0, 1, 4, 5, 3] from by decide]
  simp only [List.map_nil, List.append_nil, List.map_id, List.map_map]
  apply List.map_congr_left
  intro r hr
  have h4 := hlen r hr
  simp only [Function.comp_apply, List.map_cons, List.map_nil]
  rw [List.getD_append _ _ _ 0 (by omega), List.getD_append _ _ _ 1 (by omega),
    List.getD_append _ _ _ 3 (by omega), List.getD_append_right _ _ _ 4 (by omega),
    List.getD_append_right _ _ _ 5 (by omega), h4]
  rfl

/-- C5.  With exactly 4 columns after pruning and no detected header, the
output (when non-empty) is exactly: the canonical five columns, obtained by
keeping `Date`/`Details`/`Balance` from positions 0, 1, 3, emitting empty
strings for `Credits` and `Debits`, and discarding the `Amount` data at
position 2; the Date filter then applies as usual. -/
theorem c5_four_column_fallback (g : List (List Cell))
    (hn : ncols g = 4) (hh : headerFind (pruneGrid g) = none) :
    process_table g =
      (if (((pruneGrid g).filter (fun r => pyStrip (cellStr (r.getD 0 none)) != "")).map
          (fun r => [cleanCell (r.getD 0 none), cleanCell (r.getD 1 none), "", "",
            cleanCell (r.getD 3 none)])).isEmpty then none
       else some ⟨reqCols,
        ((pruneGrid g).filter (fun r => pyStrip (cellStr (r.getD 0 none)) != "")).map
          (fun r => [cleanCell (r.getD 0 none), cleanCell (r.getD 1 none), "", "",
            cleanCell (r.getD 3 none)])⟩) := by
  have hlen4 : ∀ r ∈ pruneGrid g, r.length = 4 := fun r hr => hn ▸ mem_pruneGrid_length hr
  have hkey : filteredRows g =
      ((pruneGrid g).filter (fun r => pyStrip (cellStr (r.getD 0 none)) != "")).map
        (fun r => [r.getD 0 none, r.getD 1 none, some "", some "", r.getD 3 none]) := by
    simp only [filteredRows]
    rw [assignCols_no_header, if_neg (by omega), if_pos hn]
    rw [completeSelect_four (pruneGrid g) hlen4]
    rw [show ((pruneGrid g).map
        (fun r => [r.getD 0 none, r.getD 1 none, some "", some "", r.getD 3 none])).filter
          (fun r => r.any (fun c => c.isSome)) =
        (pruneGrid g).map
          (fun r => [r.getD 0 none, r.getD 1 none, some "", some "", r.getD 3 none]) from
      List.filter_eq_self.mpr (fun r hr => by
        simp only [List.mem_map] at hr
        obtain ⟨q, _, rfl⟩ := hr
        simp)]
    rw [List.filter_map]
    exact congrArg _ (List.filter_congr (fun x _ => rfl))
  simp only [process_table]
  split
  · rename_i hcond
    exfalso
    simp only [Bool.or_eq_true, beq_iff_eq] at hcond
    rcases hcond with hc | hc
    · rw [pruneGrid_not_empty_of_ncols (by omega)] at hc
      exact absurd hc (by decide)
    · omega
  · have h2 : (filteredRows g).map (fun r => r.map cleanCell) =
        ((pruneGrid g).filter (fun r => pyStrip (cellStr (r.getD 0 none)) != "")).map
          (fun r => [cleanCell (r.getD 0 none), cleanCell (r.getD 1 none), "", "",
            cleanCell (r.getD 3 none)]) := by
      rw [hkey, List.map_map]
      apply List.map_congr_left
      intro r _
      simp only [Function.comp_apply, List.map_cons, List.map_nil]
      rw [show cleanCell (some "") = "" from rfl]
    rw [h2]

/-- Witness for C5 at the specification's 4-column scenario: the output is
`Date=01/01, Details=Deposit, Credits="", Debits="", Balance=100`, with the
`Amount` value discarded. -/
theorem c5_four_column_fallback_witness :
    ncols gC5 = 4 ∧ headerFind (pruneGrid gC5) = none ∧
    process_table gC5 =
      (if (((pruneGrid gC5).filter (fun r => pyStrip (cellStr (r.getD 0 none)) != "")).map
          (fun r => [cleanCell (r.getD 0 none), cleanCell (r.getD 1 none), "", "",
            cleanCell (r.getD 3 none)])).isEmpty then none
       else some ⟨reqCols,
        ((pruneGrid gC5).filter (fun r => pyStrip (cellStr (r.getD 0 none)) != "")).map
          (fun r => [cleanCell (r.getD 0 none), cleanCell (r.getD 1 none), "", "",
            cleanCell (r.getD 3 none)])⟩) ∧
    process_table gC5 = some ⟨reqCols, [["01/01", "Deposit", "", "", "100"]]⟩ := by
  exact ⟨by decide, by decide, c5_four_column_fallback gC5 (by decide) (by decide), by decide⟩

theorem getD_map_some (r : List String) (j : Nat) (hj : j < r.length) :
    (r.map (fun c => (some c : Cell))).getD j none = some (r.getD j "") := by
  rw [List.getD_eq_getElem?_getD, List.getD_eq_getElem?_getD, List.getElem?_map,
    List.getElem?_eq_getElem hj]
  rfl

theorem gwidth_uniform (g : List (List Cell)) (n : Nat) (hg : g ≠ [])
    (hlen : ∀ r ∈ g, r.length = n) : gwidth g = n := by
  induction g with
  | nil => exact absurd rfl hg
  | cons r rest ih =>
    have hr := hlen r (List.mem_cons_self r rest)
    cases rest with
    | nil =>
      show max r.length 0 = n
      rw [hr]
      exact Nat.max_zero n
    | cons r2 rest2 =>
      show max r.length (gwidth (r2 :: rest2)) = n
      rw [hr, ih (by simp) (fun x hx => hlen x (List.mem_cons_of_mem _ hx))]
      exact Nat.max_self n

/-- On a grid of fully-present cells with uniform row length, pruning is the
identity and the column count is the row length. -/
theorem pruneGrid_toGrid (t : List (List String)) (n : Nat) (hn : n ≠ 0) (ht : t ≠ [])
    (hlen : ∀ r ∈ t, r.length = n) :
    pruneGrid (toGrid t) = toGrid t ∧ ncols (toGrid t) = n := by
  have hlen2 : ∀ row ∈ toGrid t, row.length = n := by
    intro row hrow
    simp only [toGrid, List.mem_map] at hrow
    obtain ⟨r, hr, rfl⟩ := hrow
    simp [hlen r hr]
  have htg : toGrid t ≠ [] := by
    cases t with
    | nil => exact absurd rfl ht
    | cons a b => simp [toGrid]
  have hrows : dropEmptyRows (toGrid t) = toGrid t := by
    apply List.filter_eq_self.mpr
    intro row hrow
    have h5 := hlen2 row hrow
    cases row with
    | nil => rw [List.length_nil] at h5; exact absurd h5.symm hn
    | cons c q =>
      simp only [toGrid, List.mem_map] at hrow
      obtain ⟨r, hr, hre⟩ := hrow
      cases r with
      | nil => simp at hre
      | cons c0 q0 =>
        simp only [List.map_cons, List.cons.injEq] at hre
        rw [← hre.1]
        simp
  have hkept : keptCols (toGrid t) = List.range n := by
    unfold keptCols
    rw [gwidth_uniform (toGrid t) n htg hlen2]
    apply List.filter_eq_self.mpr
    intro j hj
    rw [List.mem_range] at hj
    obtain ⟨r0, hr0⟩ : ∃ r0, r0 ∈ t := by
      cases t with
      | nil => exact absurd rfl ht
      | cons a b => exact ⟨a, List.mem_cons_self a b⟩
    apply List.any_eq_true.mpr
    refine ⟨r0.map (fun c => some c), ?_, ?_⟩
    · simp only [toGrid, List.mem_map]
      exact ⟨r0, hr0, rfl⟩
    · rw [getD_map_some r0 j (by rw [hlen r0 hr0]; exact hj)]
      rfl
  constructor
  · unfold pruneGrid
    rw [hrows, hkept]
    have hpt : ∀ row ∈ toGrid t, (List.range n).map (fun j => row.getD j none) = row := by
      intro row hrow
      have hl := hlen2 row hrow
      rw [← hl]
      exact rangeGetD row none
    exact (List.map_congr_left hpt).trans (List.map_id _)
  · unfold ncols
    rw [hrows, hkept, List.length_range]

/-- Schema completion and selection are the identity on a table already named
by the canonical five columns. -/
theorem completeSelect_canonical (rows : List (List Cell))
    (hlen : ∀ r ∈ rows, r.length = 5) :
    completeSelect reqCols rows = rows := by
  simp only [completeSelect]
  rw [show (reqCols.filter (fun c => !(reqCols.contains c))) = ([] : List String) from
    by decide]
  rw [show (reqCols.map (fun c => (reqCols ++ ([] : List String)).indexOf c)) =
    [0, 1, 2, 3, 4] from by decide]
  simp only [List.map_nil, List.append_nil]
  rw [show (rows.map (fun r : List Cell => r)) = rows from List.map_id rows]
  have hr5 : ∀ r ∈ rows, (List.map (fun j => r.getD j none) [0, 1, 2, 3, 4]) = r := by
    intro r hr
    have h05 : ([0, 1, 2, 3, 4] : List Nat) = List.range r.length := by
      rw [hlen r hr]
      decide
    rw [h05]
    exact rangeGetD r none
  exact (List.map_congr_left hr5).trans (List.map_id _)

/-- C6 amended.  Re-normalizing an already-normalized five-column table (no
header-like first rows — automatic, since header detection never fires; cells
carry no missing marker, as normalizer outputs never do) reproduces the table
up to cell trimming, provided additionally that every row's Date field trims
to a non-empty string.  (Without that proviso the claim is false: the
normalizer itself can output rows with an empty Date, and re-normalization
drops them — see the counterexample.) -/
theorem c6_idempotence_amended (t : List (List String))
    (ht : t ≠ [])
    (hlen : ∀ r ∈ t, r.length = 5)
    (hscore : ∀ i < min 3 (toGrid t).length, headerScore ((toGrid t).getD i []) < 2)
    (hnan : ∀ r ∈ t, ∀ c ∈ r, pyStrip c ≠ "nan")
    (hdate : ∀ r ∈ t, pyStrip (r.getD 0 "") ≠ "") :
    process_table (toGrid t) = some ⟨reqCols, t.map (fun r => r.map pyStrip)⟩ := by
  obtain ⟨hp, hnc⟩ := pruneGrid_toGrid t 5 (by decide) ht hlen
  have htg : (toGrid t).isEmpty = false := by
    cases t with
    | nil => exact absurd rfl ht
    | cons a b => rfl
  have hlen2 : ∀ row ∈ toGrid t, row.length = 5 := by
    intro row hrow
    simp only [toGrid, List.mem_map] at hrow
    obtain ⟨r, hr, rfl⟩ := hrow
    simp [hlen r hr]
  have hfr : filteredRows (toGrid t) = toGrid t := by
    simp only [filteredRows]
    rw [hp, hnc, assignCols_no_header, if_pos (by norm_num)]
    rw [show ((List.range' 5 (5 - 5)).map (fun j => "Extra_" ++ toString j)) =
      ([] : List String) from rfl, List.append_nil]
    rw [completeSelect_canonical (toGrid t) hlen2]
    have hf1 : (toGrid t).filter (fun r => r.any (fun c => c.isSome)) = toGrid t := by
      apply List.filter_eq_self.mpr
      intro row hrow
      simp only [toGrid, List.mem_map] at hrow
      obtain ⟨r, hr, rfl⟩ := hrow
      cases r with
      | nil => exact absurd (hlen [] hr) (by decide)
      | cons c q => simp
    have hf2 : (toGrid t).filter (fun r => pyStrip (cellStr (r.getD 0 none)) != "") =
        toGrid t := by
      apply List.filter_eq_self.mpr
      intro row hrow
      simp only [toGrid, List.mem_map] at hrow
      obtain ⟨r, hr, rfl⟩ := hrow
      rw [getD_map_some r 0 (by rw [hlen r hr]; decide)]
      exact bne_iff_ne.mpr (hdate r hr)
    rw [hf1, hf2]
  have hclean : (toGrid t).map (fun r => r.map cleanCell) =
      t.map (fun r => r.map pyStrip) := by
    simp only [toGrid, List.map_map]
    apply List.map_congr_left
    intro r hr
    simp only [Function.comp_apply, List.map_map]
    apply List.map_congr_left
    intro c hc
    simp only [Function.comp_apply]
    simp [cleanCell, cellStr, hnan r hr c hc]
  simp only [process_table]
  rw [hp, hnc, htg]
  rw [if_neg (by decide)]
  rw [hfr, hclean]
  rw [if_neg (by
    cases t with
    | nil => exact absurd rfl ht
    | cons a b => simp)]

/-- C6 counterexample.  `tC6` is an already-normalized five-column table (it
is literally the output of `process_table` on `gNaN`), its cells are already
trimmed (so "unchanged except for string-trimming" means unchanged), yet
re-normalizing it drops the empty-Date row: the positional fallback is not
idempotent on all normalizer outputs. -/
theorem c6_idempotence_counterexample :
    process_table gNaN = some ⟨reqCols, tC6⟩ ∧
    tC6.map (fun r => r.map pyStrip) = tC6 ∧
    process_table (toGrid tC6) = some ⟨reqCols, [["01/01", "x", "1", "2", "3"]]⟩ ∧
    process_table (toGrid tC6) ≠ some ⟨reqCols, tC6⟩ := by
  exact ⟨by decide, by decide, by decide, by decide⟩

/-- Witness for the amended C6 at a concrete normalized table. -/
theorem c6_idempotence_amended_witness :
    process_table (toGrid [["01/01", "Deposit", "", "", "100"]]) =
      some ⟨reqCols,
        ([["01/01", "Deposit", "", "", "100"]] : List (List String)).map
          (fun r => r.map pyStrip)⟩ :=
  c6_idempotence_amended [["01/01", "Deposit", "", "", "100"]] (by decide) (by decide)
    (by decide) (by decide) (by decide)

/-- C8.  If the body raises on one table of a file, that table contributes no
rows and the file result equals the result of the same file without that
table: the other tables are still processed, and nothing aborts the file or
the batch. -/
theorem c8_table_exception_isolated (body : Grid → Except String (Option NTable))
    (pre post : List Grid) (g : Grid) (e : String)
    (herr : body g = Except.error e) :
    normTable body g = none ∧
    fileResult body (pre ++ g :: post) = fileResult body (pre ++ post) := by
  have hnone : normTable body g = none := by
    unfold normTable
    split
    · rfl
    · rw [herr]
  refine ⟨hnone, ?_⟩
  unfold fileResult normalizeAll
  rw [List.filterMap_append, List.filterMap_append, List.filterMap_cons, hnone]

/-- Witness for C8: a body that errors on the marked grid; the erroring table
contributes nothing and the other table of the file is still written. -/
theorem c8_table_exception_isolated_witness :
    (fun g : Grid => if g = [[some "BOOM"]] then (Except.error "boom" : Except String (Option NTable))
      else Except.ok (process_table g)) [[some "BOOM"]] = Except.error "boom" ∧
    normTable (fun g : Grid => if g = [[some "BOOM"]] then Except.error "boom"
      else Except.ok (process_table g)) [[some "BOOM"]] = none ∧
    fileResult (fun g : Grid => if g = [[some "BOOM"]] then Except.error "boom"
        else Except.ok (process_table g)) ([] ++ [[some "BOOM"]] :: [gC5]) =
      fileResult (fun g : Grid => if g = [[some "BOOM"]] then Except.error "boom"
        else Except.ok (process_table g)) ([] ++ [gC5]) := by
  refine ⟨rfl, ?_, ?_⟩
  · exact (c8_table_exception_isolated _ [] [gC5] [[some "BOOM"]] "boom" rfl).1
  · exact (c8_table_exception_isolated _ [] [gC5] [[some "BOOM"]] "boom" rfl).2

/-- C9.  The stream strategy result is consulted exactly when lattice yielded
zero tables (when lattice found tables the outcome does not depend on the
stream result at all); when both strategies yield zero tables the file is
skipped with no CSV produced; and the batch processes every other file
unchanged. -/
theorem c9_strategy_fallback_and_skip (lattice stream : List Grid)
    (pre post : List (List Grid × List Grid)) :
    (lattice ≠ [] → ∀ stream2, driveFile lattice stream = driveFile lattice stream2) ∧
    driveFile [] stream = tablesOutcome stream ∧
    driveFile [] [] = FileOutcome.skippedNoTables ∧
    csvOutput (driveFile [] []) = none ∧
    runBatch (pre ++ (lattice, stream) :: post) =
      runBatch pre ++ driveFile lattice stream :: runBatch post := by
  refine ⟨?_, rfl, rfl, rfl, ?_⟩
  · intro hne stream2
    unfold driveFile
    rw [if_neg (by simpa using hne), if_neg (by simpa using hne)]
  · unfold runBatch
    rw [List.map_append, List.map_cons]

/-- Witness for C9: with a non-empty lattice result the stream result is
ignored; with two empty results the file is skipped and no CSV appears. -/
theorem c9_strategy_fallback_and_skip_witness :
    ([gC5] : List Grid) ≠ [] ∧
    driveFile [gC5] [[[some "ignored"]]] = driveFile [gC5] [] ∧
    driveFile [] [] = FileOutcome.skippedNoTables ∧
    csvOutput (driveFile [] []) = none := by
  refine ⟨by decide, ?_, ?_, ?_⟩
  · exact (c9_strategy_fallback_and_skip [gC5] [[[some "ignored"]]] [] []).1
      (by decide) []
  · exact (c9_strategy_fallback_and_skip [] [] [] []).2.2.1
  · exact (c9_strategy_fallback_and_skip [] [] [] []).2.2.2.1
